import Mathlib

/-!
# Tab Organizer — verification of the organize task pipeline

Shallow embedding of the core of the Tab Organizer browser extension:
the URL sanitizer, the AI grouping client (`api.ts`, with its retry /
backoff / cancellation loop), the response parser and ordinal mapping,
the tab-group applier (`tabs.ts`), the settings validator (`storage.ts`)
and the task orchestrator (`background/messages/organize.ts`).

JavaScript runtime values that cross the AI boundary are modelled by
`JsonVal` (JSON numbers restricted to integers: the ordinal / id logic
only distinguishes integers in range from everything else).  Thrown
JavaScript errors are modelled by `JsError` carrying the `name` and
`message` fields the code inspects.  The network, the browser tab API
and wall-clock delays are environments supplied as explicit arguments.
-/

/-- A thrown JavaScript error, reduced to the two fields the code
inspects: `error.name` and `error.message`. -/
structure JsError where
  name : String
  message : String
deriving DecidableEq

/-- `new Error(msg)`: a plain error with name `"Error"`. -/
def jsError (msg : String) : JsError := ⟨"Error", msg⟩

/-- The `DOMException` a fetch rejects with once its `AbortSignal` fires;
only the `name` field (`"AbortError"`) is ever inspected by the code. -/
def abortError : JsError := ⟨"AbortError", "The user aborted a request."⟩

/-- Whether `pre` is a leading run of `s` (on character lists). -/
def leadsChars : List Char → List Char → Bool
  | [], _ => true
  | _ :: _, [] => false
  | c :: cs, d :: ds => c == d && leadsChars cs ds

/-- Whether `sub` occurs contiguously inside `s` (on character lists). -/
def containsChars (sub : List Char) : List Char → Bool
  | [] => sub.isEmpty
  | d :: rest => leadsChars sub (d :: rest) || containsChars sub rest

/-- JavaScript's `String.prototype.includes`. -/
def strIncludes (s sub : String) : Bool := containsChars sub.data s.data

/-- Runtime JSON values (the shape of `JSON.parse` output).  Numbers are
restricted to integers: every numeric field the code consumes (`tabIds`
ordinals) is either an in-range integer or gets dropped, and a
non-integral number behaves like any other out-of-range value. -/
inductive JsonVal where
  | null
  | bool (b : Bool)
  | num (n : Int)
  | str (s : String)
  | arr (elems : List JsonVal)
  | obj (fields : List (String × JsonVal))

/-- JavaScript truthiness of a JSON value (`!x` is `!truthy x`). -/
def JsonVal.truthy : JsonVal → Bool
  | .null => false
  | .bool b => b
  | .num n => n != 0
  | .str s => s != ""
  | .arr _ => true
  | .obj _ => true

/-- `typeof x === "object"` for a JSON value (true for objects, arrays
and `null`). -/
def JsonVal.isObjectType : JsonVal → Bool
  | .null => true
  | .arr _ => true
  | .obj _ => true
  | _ => false

/-- Property access `x[key]`: `some` for a present object field,
`none` (i.e. `undefined`) otherwise. -/
def JsonVal.getField : JsonVal → String → Option JsonVal
  | .obj fields, key => fields.lookup key
  | _, _ => none

/-- A browser tab as produced by `getAllTabs` (`lib/tabs.ts`). -/
structure TabInfo where
  id : Nat
  title : String
  url : String
deriving DecidableEq

/-- A parsed group suggestion (`TabGroup` in `lib/types.ts`): `tabIds`
hold durable tab identifiers after ordinal resolution.  The `name` is
kept as a raw JSON value because `group.name || "Unnamed"` passes any
truthy value through unchanged. -/
structure TabGroup where
  name : JsonVal
  color : String
  tabIds : List Nat

/-! ## URL sanitizer (`sanitizeUrl`, `lib/api.ts`)

`sanitizeUrl` delegates parsing to the platform's WHATWG `new URL`.
The parser is modelled here for the URL shapes the extension meets:
a scheme followed by `://authority/path?query#fragment` (origin
`scheme://host`, scheme lowercased, userinfo stripped), and opaque
non-special-scheme URLs (origin `"null"`).  Not modelled: host
case-normalization, default-port elision, IPv6 hosts, percent-decoding,
and the special schemes other than http/https. -/

/-- Valid non-initial characters of a URL scheme. -/
def schemeChar (c : Char) : Bool := c.isAlphanum || c == '+' || c == '-' || c == '.'

/-- Split a character list at the first `':'`; `none` when there is no
colon at all. -/
def takeUntilColon : List Char → Option (List Char × List Char)
  | [] => none
  | c :: rest =>
    if c == ':' then some ([], rest)
    else
      match takeUntilColon rest with
      | some (pre, post) => some (c :: pre, post)
      | none => none

/-- A character that terminates the authority component. -/
def authorityEnd (c : Char) : Bool := c == '/' || c == '?' || c == '#'

/-- A character that terminates the path component. -/
def pathEnd (c : Char) : Bool := c == '?' || c == '#'

/-- The `protocol`, `origin` and `pathname` of a parsed URL — the only
properties the repository reads (`sanitizeUrl`, `isValidUrl`). -/
structure URLParts where
  protocol : String
  origin : String
  pathname : String
deriving DecidableEq

/-- Everything after the last `'@'` (the whole list when there is no
`'@'`): strips the userinfo from an authority. -/
def afterLastAt (cs : List Char) : List Char :=
  (cs.reverse.takeWhile (fun c => c != '@')).reverse

/-- Parse the authority-and-path part (everything after `scheme://`),
returning the host (userinfo stripped) and the pathname.  (ASCII
case-normalization of the host is not modelled; every URL the claims
exercise is already lowercase.) -/
def parseAuthority (rest : List Char) : List Char × List Char :=
  let auth := rest.takeWhile (fun c => !(authorityEnd c))
  let afterAuth := rest.dropWhile (fun c => !(authorityEnd c))
  let host := afterLastAt auth
  let path := afterAuth.takeWhile (fun c => !(pathEnd c))
  (host, path)

/-- A character the URL parser strips from both ends of its input
(C0 controls and space, per the WHATWG algorithm). -/
def urlTrimChar (c : Char) : Bool := c.toNat ≤ 32

/-- Strip leading and trailing C0-control / space characters. -/
def trimURLChars (cs : List Char) : List Char :=
  ((cs.dropWhile urlTrimChar).reverse.dropWhile urlTrimChar).reverse

/-- Parse the part after the colon of a special (http / https) scheme:
an authority is required and the host must be non-empty. -/
def parseSpecial (scheme : String) (post : List Char) : Option URLParts :=
  match post with
  | '/' :: '/' :: rest =>
    if (parseAuthority rest).1.isEmpty then none
    else some ⟨scheme ++ ":", scheme ++ "://" ++ (parseAuthority rest).1.asString,
      (parseAuthority rest).2.asString⟩
  | _ => none

/-- Parse the part after the colon of a non-special scheme: origin is
`"null"`; with an authority the path follows it, otherwise the whole
remainder up to a query / fragment is the (opaque) path. -/
def parseOpaque (scheme : String) (post : List Char) : Option URLParts :=
  match post with
  | '/' :: '/' :: rest =>
    some ⟨scheme ++ ":", "null", (parseAuthority rest).2.asString⟩
  | _ => some ⟨scheme ++ ":", "null", (post.takeWhile (fun c => !(pathEnd c))).asString⟩

/-- Model of the platform `new URL` parser, restricted as documented
above; `none` models the constructor throwing. -/
def parseURL (url : String) : Option URLParts :=
  match takeUntilColon (trimURLChars url.data) with
  | none => none
  | some (pre, post) =>
    match pre with
    | [] => none
    | c0 :: _ =>
      if c0.isAlpha && pre.all schemeChar then
        if (pre.map Char.toLower).asString == "http" ||
            (pre.map Char.toLower).asString == "https" then
          parseSpecial ((pre.map Char.toLower).asString) post
        else parseOpaque ((pre.map Char.toLower).asString) post
      else none

/-- `sanitizeUrl` (`lib/api.ts`, lines 156–168): origin plus first path
segment on parse success, first 50 characters of the raw input on parse
failure, and the constant `"(invalid URL)"` for a falsy input. -/
def sanitizeUrl (url : String) : String :=
  if url = "" then "(invalid URL)"
  else
    match parseURL url with
    | some parsed =>
      let pathSegments := (parsed.pathname.data.splitOn '/').filter (fun s => !s.isEmpty)
      let firstPath := match pathSegments with | [] => "" | s :: _ => "/" ++ s.asString
      parsed.origin ++ firstPath
    | none => (url.data.take 50).asString

/-- `sanitizeUrl` as seen by untyped JavaScript callers: the
`typeof url !== "string"` half of the guard on line 157. -/
def sanitizeUrlJS (v : JsonVal) : String :=
  match v with
  | .str s => sanitizeUrl s
  | _ => "(invalid URL)"

/-! ## Grouping client (`lib/api.ts`)

The HTTP exchange is abstracted into an environment: attempt `k` of the
retry loop is described by an `AttemptEnv` giving the state of the
cancellation signal at the two points the code observes it and the
outcome of the (fetch + body-decode) operation.  The `onDebug`
diagnostic sink is write-only and is not modelled here (the orchestrator
models the resulting log). -/

/-- Request timeout in milliseconds (60 seconds), `api.ts` line 131. -/
def REQUEST_TIMEOUT_MS : Nat := 60000

/-- Maximum number of retries beyond the first attempt, `api.ts` line 134. -/
def MAX_RETRIES : Nat := 2

/-- Initial retry delay in milliseconds; doubles on each retry. -/
def RETRY_DELAY_MS : Nat := 1000

/-- `isRetryableError` (`api.ts` lines 147–150): a missing status
(network error) is retryable, as are 429/500/502/503/504.  The `!status`
test also catches a zero status. -/
def isRetryableError (status : Option Nat) : Bool :=
  match status with
  | none => true
  | some s =>
    if s == 0 then true
    else s == 429 || s == 500 || s == 502 || s == 503 || s == 504

/-- The `statusMessages` record lookup with its `API error: ${status}`
default (`api.ts` lines 383–390). -/
def statusMessage (status : Nat) : String :=
  if status == 401 then "Invalid API key"
  else if status == 403 then "Access denied - check API key permissions"
  else if status == 429 then "Rate limited - please wait and try again"
  else if status == 500 then "API server error - try again later"
  else if status == 503 then "API service unavailable - try again later"
  else s!"API error: {status}"

/-- `Response.ok`: status in the 2xx range. -/
def respOk (status : Nat) : Bool := 200 ≤ status && status < 300

/-- `createTabMapping` (`api.ts` lines 175–187).  Tab ids are numbers by
construction of `TabInfo`, so the `typeof tab.id === "number"` guard is
always satisfied; `forEach` + `Map.set` over the distinct indices is an
association list keyed first-hit (indices are distinct, so lookup order
is immaterial for `indexToId`). -/
structure TabMapping where
  indexToId : List (Nat × Nat)
  idToIndex : List (Nat × Nat)

def createTabMapping (tabs : List TabInfo) : TabMapping :=
  { indexToId := tabs.enum.map (fun p => (p.1, p.2.id))
    idToIndex := tabs.enum.map (fun p => (p.2.id, p.1)) }

/-- `mapping.indexToId.get(index)` where the AI-supplied index is an
arbitrary (possibly negative) integer: no negative key is ever present. -/
def mappingGet (m : List (Nat × Nat)) (n : Int) : Option Nat :=
  if n < 0 then none else m.lookup n.toNat

/-- The fixed color palette (`api.ts` line 205). -/
def VALID_COLORS : List String :=
  ["grey", "blue", "red", "yellow", "green", "pink", "purple", "cyan", "orange"]

/-- The `tabIds` pipeline of `parseResponse` (`api.ts` lines 247–251):
keep the numbers, map ordinals to tab ids through the mapping, drop
unresolved ordinals. -/
def resolveRawTabIds (m : List (Nat × Nat)) (xs : List JsonVal) : List Nat :=
  let nums := xs.filterMap (fun x => match x with | .num n => some n | _ => none)
  let mapped := nums.map (fun n => mappingGet m n)
  mapped.filterMap id

/-- `(group.tabIds || [])` followed by the array check implicit in
calling `.filter` on it: a missing or falsy field is an empty list, a
truthy non-array throws a `TypeError`. -/
def rawTabIds (g : JsonVal) : Except JsError (List JsonVal) :=
  match g.getField "tabIds" with
  | some v =>
    if v.truthy then
      match v with
      | .arr xs => .ok xs
      | _ => .error ⟨"TypeError", "group.tabIds.filter is not a function"⟩
    else .ok []
  | none => .ok []

/-- The `parsed.groups.map` callback of `parseResponse` (`api.ts` lines
238–252), with the index threaded for the error message; a thrown error
in one group aborts the whole map, earliest group first. -/
def mapGroups (mapping : TabMapping) : Nat → List JsonVal → Except JsError (List TabGroup)
  | _, [] => .ok []
  | idx, g :: rest =>
    if !g.truthy || !g.isObjectType then .error (jsError s!"Invalid group at index {idx}")
    else
      let name := match g.getField "name" with
        | some v => if v.truthy then v else .str "Unnamed"
        | none => .str "Unnamed"
      let color := match g.getField "color" with
        | some (.str c) => if VALID_COLORS.contains c then c else "grey"
        | _ => "grey"
      match rawTabIds g with
      | .error e => .error e
      | .ok xs =>
        match mapGroups mapping (idx + 1) rest with
        | .error e => .error e
        | .ok gs => .ok (⟨name, color, resolveRawTabIds mapping.indexToId xs⟩ :: gs)

/-- `parseResponse` (`api.ts` lines 207–253) after the fenced-code-block
stripping and `JSON.parse` (those live in `ContentModel`): well-formed
object, truthy array `groups`, non-empty, then the per-group map. -/
def parseResponseVal (parsed : JsonVal) (mapping : TabMapping) : Except JsError (List TabGroup) :=
  if !parsed.truthy || !parsed.isObjectType then
    .error (jsError "Invalid response: not an object")
  else
    match parsed.getField "groups" with
    | some (.arr gs) =>
      if gs.length == 0 then
        .error (jsError "AI returned zero groups - try again or check your prompt")
      else mapGroups mapping 0 gs
    | _ => .error (jsError "Invalid response: missing or invalid groups array")

/-- The textual completion payload of a 2xx response, after
`data.choices?.[0]?.message?.content` extraction, optional code-fence
stripping and `JSON.parse`: `missing` models an absent or falsy content
(`if (!content)`), `invalidJson` a `JSON.parse` failure with the
runtime's message, `json` a successful parse. -/
inductive ContentModel where
  | missing
  | invalidJson (emsg : String)
  | json (v : JsonVal)

/-- Outcome of one `fetchWithTimeout` + body decode: an HTTP response
(with error body text and, for 2xx, the decoded content), or a rejection
(network failure, the 60s watchdog timeout, or a `response.json()`
failure — all reach the same `catch`). -/
inductive FetchOutcome where
  | response (status : Nat) (errorBody : String) (content : ContentModel)
  | reject (e : JsError)

/-- The environment of one retry-loop iteration: the cancellation signal
as observed at the top of the loop and again when the fetch would start
(a signal aborted during the backoff delay makes the fetch reject with
`abortError` without issuing a request), plus the fetch outcome. -/
structure AttemptEnv where
  abortedAtLoopTop : Bool
  abortedBeforeFetch : Bool
  outcome : FetchOutcome

/-- Result of the body of one loop iteration: either the loop is done
(function returns or the error propagates out) or `continue` runs the
next attempt with `lastError` set. -/
inductive IterStep where
  | done (r : Except JsError (List TabGroup))
  | retryStep (lastErr : JsError)

/-- The `catch` block of the retry loop (`api.ts` lines 403–417):
cancellations propagate immediately; timeout / network-fetch errors
retry while attempts remain; everything else propagates. -/
def applyCatch (attempt : Nat) (err : JsError) : IterStep :=
  if err.name == "AbortError" || strIncludes err.message "cancelled" then .done (.error err)
  else if decide (attempt < MAX_RETRIES) && (strIncludes err.message "timeout" || strIncludes err.message "fetch") then
    .retryStep err
  else .done (.error err)

/-- The `try` body of one iteration (`api.ts` lines 357–417), with every
`throw` routed through `applyCatch`.  The second component records
whether a request was actually issued (an already-aborted signal makes
`fetch` reject without a request). -/
def runAttempt (mapping : TabMapping) (e : AttemptEnv) (attempt : Nat) : IterStep × Bool :=
  if e.abortedBeforeFetch then (applyCatch attempt abortError, false)
  else
    match e.outcome with
    | .reject err => (applyCatch attempt err, true)
    | .response status _errorBody content =>
      if respOk status then
        match content with
        | .missing => (applyCatch attempt (jsError "No content in API response"), true)
        | .invalidJson emsg =>
          (applyCatch attempt (jsError s!"AI returned invalid JSON: {emsg}"), true)
        | .json v =>
          match parseResponseVal v mapping with
          | .ok gs => (.done (.ok gs), true)
          | .error err => (applyCatch attempt err, true)
      else
        if decide (attempt < MAX_RETRIES) && isRetryableError (some status) then
          (.retryStep (jsError s!"API error: {status}"), true)
        else (applyCatch attempt (jsError (statusMessage status)), true)

/-- Observable outcome of `organizeTabsWithAI`: the returned groups or
the thrown error, the number of HTTP requests issued, and the backoff
delays awaited (in order, milliseconds). -/
structure RunOutcome where
  result : Except JsError (List TabGroup)
  fetchCount : Nat
  delays : List Nat

/-- The retry loop of `organizeTabsWithAI` (`api.ts` lines 344–421):
`attempt` runs from 0 to `MAX_RETRIES`; the fuel argument counts the
iterations the `for` bound still allows.  Falling off the loop throws
`lastError` (or the generic message). -/
def organizeLoop (env : Nat → AttemptEnv) (mapping : TabMapping) :
    Nat → Nat → Option JsError → Nat → List Nat → RunOutcome
  | _, 0, lastError, fc, ds =>
    ⟨.error (lastError.getD (jsError "Request failed after multiple retries")), fc, ds⟩
  | attempt, fuel + 1, _lastError, fc, ds =>
    let e := env attempt
    if e.abortedAtLoopTop then ⟨.error (jsError "Request cancelled"), fc, ds⟩
    else
      let ds' := if attempt > 0 then ds ++ [RETRY_DELAY_MS * 2 ^ (attempt - 1)] else ds
      match runAttempt mapping e attempt with
      | (.done r, fetched) => ⟨r, fc + (if fetched then 1 else 0), ds'⟩
      | (.retryStep le, fetched) =>
        organizeLoop env mapping (attempt + 1) fuel (some le) (fc + (if fetched then 1 else 0)) ds'

/-- `organizeTabsWithAI` (`api.ts` lines 310–422): build the mapping,
reject an empty tab list, then run the retry loop.  The request body
construction (system prompt, user prompt via `sanitizeUrl`) only flows
into the opaque HTTP exchange and is carried by the environment. -/
def organizeTabsWithAI (tabs : List TabInfo) (env : Nat → AttemptEnv) : RunOutcome :=
  let mapping := createTabMapping tabs
  if tabs.length == 0 then ⟨.error (jsError "No tabs to organize"), 0, []⟩
  else organizeLoop env mapping 0 (MAX_RETRIES + 1) none 0 []

/-! ## Settings (`lib/storage.ts`) -/

/-- User settings (shape per `defaultSettings` in `lib/storage.ts`). -/
structure Settings where
  apiEndpoint : String
  apiKey : String
  model : String
  debugMode : Bool
  collapseGroups : Bool
  reasoningEffort : String
deriving DecidableEq

/-- JavaScript `String.prototype.trim` (ASCII whitespace suffices for
the validation checks). -/
def jsTrim (s : String) : String := (trimURLChars s.data).asString

/-- `isValidUrl` (`storage.ts` lines 17–25): the URL must parse and its
protocol must be `http:` or `https:`. -/
def isValidUrl (url : String) : Bool :=
  if url = "" then false
  else
    match parseURL url with
    | some parsed => parsed.protocol == "http:" || parsed.protocol == "https:"
    | none => false

/-- Result shape of `validateSettings`. -/
structure ValidationResult where
  valid : Bool
  error : Option String
deriving DecidableEq

/-- `validateSettings` (`storage.ts` lines 46–60). -/
def validateSettings (settings : Settings) : ValidationResult :=
  if settings.apiEndpoint = "" || !isValidUrl settings.apiEndpoint then
    ⟨false, some "Invalid API endpoint URL"⟩
  else if settings.apiKey = "" || jsTrim settings.apiKey = "" then
    ⟨false, some "API key is required"⟩
  else if settings.model = "" || jsTrim settings.model = "" then
    ⟨false, some "Model name is required"⟩
  else ⟨true, none⟩

/-! ## Task state (`lib/types.ts` / `background/taskManager.ts`)

The `taskManager` module and the `TaskState` type are not among the
repository sources here — only their callers are — so they are modelled
from the spec (§3, §4.3): a persisted single-writer tagged record with
variants `idle` / `running{phase}` / `completed{groupCount, debugLog?}`
/ `error{message}` / `cancelled`.  The wall-clock `*At` timestamp fields
carry no control logic and are omitted from the model. -/

/-- Modelled from the spec: the four orchestration phases of a running
task (§3). -/
inductive TaskPhase where
  | fetchingTabs
  | ungrouping
  | callingAI
  | creatingGroups
deriving DecidableEq

/-- Modelled from the spec: the persisted `TaskState` record (§3),
missing `lib/types.ts`; variant shapes as read back by the popup. -/
inductive TaskState where
  | idle
  | running (phase : TaskPhase)
  | completed (groupCount : Nat) (debug : Option (List String))
  | error (message : String)
  | cancelled
deriving DecidableEq

/-- Modelled from the spec: `taskManager.isRunning`, true exactly on a
persisted `running` record (§3 exclusivity check), missing
`background/taskManager.ts`. -/
def isRunning (st : TaskState) : Bool :=
  match st with
  | .running _ => true
  | _ => false

/-- `state.status === "cancelled"`, the test done by `isCancelled` in
`organize.ts` lines 25–28 on the state read back from storage. -/
def isCancelledState (st : TaskState) : Bool :=
  match st with
  | .cancelled => true
  | _ => false

/-- Modelled from the spec: `taskManager.startTask` transitions the
persisted record to `running` in its first phase (and hands the caller
a fresh cancellation token, which is implicit here), missing
`background/taskManager.ts`. -/
def startTask (_st : TaskState) : TaskState := .running .fetchingTabs

/-! ## Tab mutation applier (`lib/tabs.ts`) -/

/-- A tab group as actually created by `createTabGroups`: the surviving
tab ids and the collapsed flag passed to `chrome.tabGroups.update`. -/
structure AppliedGroup where
  name : JsonVal
  color : String
  tabIds : List Nat
  collapsed : Bool

/-- `filterExistingTabs` (`tabs.ts` lines 76–87): keep the ids
`chrome.tabs.get` still resolves; `live` is the browser's answer. -/
def filterExistingTabs (live : Nat → Bool) (tabIds : List Nat) : List Nat :=
  tabIds.filter (fun t => live t)

/-- The `for` loop of `createTabGroups` (`tabs.ts` lines 116–138) with
the iteration index made explicit: a group whose surviving tabs are
empty is skipped, a failure of the grouped `chrome.tabs.group` +
`chrome.tabGroups.update` call (`groupOk i = false`) is swallowed and
the loop continues with the remaining groups. -/
def createTabGroupsLoop (live : Nat → Bool) (groupOk : Nat → Bool)
    (collapseOthers : Bool) (activeTabId : Option Nat) :
    Nat → List TabGroup → List AppliedGroup
  | _, [] => []
  | i, g :: rest =>
    let validTabIds := filterExistingTabs live g.tabIds
    if validTabIds.isEmpty then
      createTabGroupsLoop live groupOk collapseOthers activeTabId (i + 1) rest
    else if groupOk i then
      let containsActiveTab := match activeTabId with
        | some a => validTabIds.contains a
        | none => false
      let shouldCollapse := collapseOthers && !containsActiveTab
      ⟨g.name, g.color, validTabIds, shouldCollapse⟩ ::
        createTabGroupsLoop live groupOk collapseOthers activeTabId (i + 1) rest
    else
      createTabGroupsLoop live groupOk collapseOthers activeTabId (i + 1) rest

/-- `createTabGroups` (`tabs.ts` lines 110–139). -/
def createTabGroups (groups : List TabGroup) (live : Nat → Bool) (groupOk : Nat → Bool)
    (collapseOthers : Bool) (activeTabId : Option Nat) : List AppliedGroup :=
  createTabGroupsLoop live groupOk collapseOthers activeTabId 0 groups

/-- What the loop does to a single indexed group, independently of every
other group. -/
def applyStep (live : Nat → Bool) (groupOk : Nat → Bool) (collapseOthers : Bool)
    (activeTabId : Option Nat) (p : Nat × TabGroup) : Option AppliedGroup :=
  let validTabIds := filterExistingTabs live p.2.tabIds
  if validTabIds.isEmpty then none
  else if groupOk p.1 then
    let containsActiveTab := match activeTabId with
      | some a => validTabIds.contains a
      | none => false
    some ⟨p.2.name, p.2.color, validTabIds, collapseOthers && !containsActiveTab⟩
  else none

/-! ## Task orchestrator (`background/messages/organize.ts`)

`executeOrganizeTask` is interpreted as a straight-line program over an
explicit environment.  The persisted `TaskState` is threaded through the
interpreter; the cancellation requester (the popup writes
`{status:"cancelled"}` straight to storage) is the one external writer,
and its effect is observed at the orchestrator's storage reads:
`extCancelled r = true` means that by the time of the `r`-th
`isCancelled` read an external cancel write has landed since the
orchestrator's last own write.  `abortedAt i` is `signal.aborted` at the
orchestrator's `i`-th signal check.  The AI call is abstracted by
`aiResult` / `aiDebug` (settled by the client model above). -/

/-- Environment of one orchestrator run. -/
structure OrchEnv where
  settings : Settings
  tabs : List TabInfo
  abortedAt : Nat → Bool
  extCancelled : Nat → Bool
  aiResult : Except JsError (List TabGroup)
  aiDebug : List String
  live : Nat → Bool
  groupOk : Nat → Bool
  activeTabId : Option Nat

/-- Externally visible actions of one orchestrator run, in order. -/
inductive OrchEffect where
  | wrotePhase (p : TaskPhase)
  | fetchedTabs
  | ungroupedAll
  | calledAI
  | queriedActiveTab
  | appliedGroups (applied : List AppliedGroup)
  | wroteCompleted (groupCount : Nat)
  | wroteError (message : String)

/-- How the run ended: an early return at cancellation checkpoint `k`
(checkpoints 0–3 are the `signal.aborted || await isCancelled()` phase
boundaries, 4 the final pre-complete `isCancelled` read), the empty-tabs
failure, the catch of an `AbortError`, the catch swallowing an error
because the state is cancelled, a persisted failure, or completion. -/
inductive ExitKind where
  | earlyCancel (checkpoint : Nat)
  | noTabs
  | abortReturn
  | cancelSwallow
  | failed (message : String)
  | completedOk
deriving DecidableEq

/-- Result of one orchestrator run. -/
structure OrchResult where
  final : TaskState
  effects : List OrchEffect
  exit : ExitKind

/-- Interpreter state: persisted record, number of storage reads done so
far, effect trace, accumulated `debugLog`. -/
structure OrchSt where
  state : TaskState
  readIdx : Nat
  effects : List OrchEffect
  log : List String

/-- `debugLog.push`, modelled unconditionally (the `settings.debugMode`
gate inside `onDebug` only matters at the single point the log is
published, in `completeTask`). -/
def pushLog (s : OrchSt) (msg : String) : OrchSt := { s with log := s.log ++ [msg] }

/-- Append the client's own debug lines during the AI call. -/
def pushLogs (s : OrchSt) (msgs : List String) : OrchSt := { s with log := s.log ++ msgs }

/-- Record a non-storage effect. -/
def pushEffect (s : OrchSt) (e : OrchEffect) : OrchSt := { s with effects := s.effects ++ [e] }

/-- A storage write by the orchestrator (`setTaskPhase`, `failTask`,
`completeTask` — modelled from the spec as plain writes of the new
variant, `background/taskManager.ts` being absent). -/
def writeState (s : OrchSt) (st : TaskState) (e : OrchEffect) : OrchSt :=
  { s with state := st, effects := s.effects ++ [e] }

/-- One `isCancelled()` read (`organize.ts` lines 25–28): any external
cancel write that landed since the orchestrator's last own write is
applied first, then the read reports whether the record is `cancelled`. -/
def readCancelled (env : OrchEnv) (s : OrchSt) : Bool × OrchSt :=
  let st := if env.extCancelled s.readIdx then TaskState.cancelled else s.state
  (isCancelledState st, { s with state := st, readIdx := s.readIdx + 1 })

/-- Package up a finished run. -/
def finish (s : OrchSt) (e : ExitKind) : OrchResult := ⟨s.state, s.effects, e⟩

/-- The tail of `executeOrganizeTask` from the AI call on (`organize.ts`
lines 64–113), split out to keep the interpreter readable: the AI
outcome is dispatched either into the `catch` block (lines 101–113) or
into phase 4 and completion (lines 73–100). -/
def executeFromAI (env : OrchEnv) (s : OrchSt) : OrchResult :=
  match env.aiResult with
  | .error e =>
    if e.name == "AbortError" then finish s .abortReturn
    else
      if (readCancelled env s).1 then finish (readCancelled env s).2 .cancelSwallow
      else
        let s1 := pushLog (readCancelled env s).2 s!"Error: {e.message}"
        finish (writeState s1 (.error e.message) (.wroteError e.message)) (.failed e.message)
  | .ok groups =>
    let s1 := pushLog s s!"AI returned {groups.length} groups"
    if env.abortedAt 3 then finish s1 (.earlyCancel 3)
    else
      if (readCancelled env s1).1 then finish (readCancelled env s1).2 (.earlyCancel 3)
      else
        let s2 := writeState (readCancelled env s1).2 (.running .creatingGroups)
          (.wrotePhase .creatingGroups)
        let s3 := pushLog s2 "Creating groups..."
        let s4 := pushEffect s3 .queriedActiveTab
        let activeDisplay := match env.activeTabId with
          | some i => toString i
          | none => "none"
        let s5 := if env.settings.collapseGroups then
            pushLog s4 s!"Collapse others enabled, active tab {activeDisplay} group stays expanded"
          else s4
        let applied := createTabGroups groups env.live env.groupOk
          env.settings.collapseGroups env.activeTabId
        let s6 := pushEffect s5 (.appliedGroups applied)
        if (readCancelled env s6).1 then finish (readCancelled env s6).2 (.earlyCancel 4)
        else
          let s7 := pushLog (readCancelled env s6).2 "Done!"
          finish
            (writeState s7
              (.completed groups.length (if env.settings.debugMode then some s7.log else none))
              (.wroteCompleted groups.length))
            .completedOk

/-- `executeOrganizeTask` (`organize.ts` lines 30–114), phases 1–3. -/
def executeOrganizeTask (env : OrchEnv) (st0 : TaskState) : OrchResult :=
  let s : OrchSt := ⟨st0, 0, [], []⟩
  let s := writeState s (.running .fetchingTabs) (.wrotePhase .fetchingTabs)
  let s := pushLog s "Fetching tabs..."
  let s := pushEffect s .fetchedTabs
  let tabs := env.tabs
  let s := pushLog s s!"Found {tabs.length} tabs"
  if env.abortedAt 0 then finish s (.earlyCancel 0)
  else
    if (readCancelled env s).1 then finish (readCancelled env s).2 (.earlyCancel 0)
    else
      let s1 := (readCancelled env s).2
      if tabs.length == 0 then
        finish (writeState s1 (.error "No tabs found") (.wroteError "No tabs found")) .noTabs
      else if env.abortedAt 1 then finish s1 (.earlyCancel 1)
      else
        if (readCancelled env s1).1 then finish (readCancelled env s1).2 (.earlyCancel 1)
        else
          let s2 := writeState (readCancelled env s1).2 (.running .ungrouping)
            (.wrotePhase .ungrouping)
          let s3 := pushLog s2 "Ungrouping existing groups..."
          let s4 := pushEffect s3 .ungroupedAll
          if env.abortedAt 2 then finish s4 (.earlyCancel 2)
          else
            if (readCancelled env s4).1 then finish (readCancelled env s4).2 (.earlyCancel 2)
            else
              let s5 := writeState (readCancelled env s4).2 (.running .callingAI)
                (.wrotePhase .callingAI)
              let s6 := pushLog s5 "Calling AI..."
              let s7 := pushEffect s6 .calledAI
              let s8 := pushLogs s7 env.aiDebug
              executeFromAI env s8

/-- Response shape of the `organize` message handler. -/
structure OrganizeResponse where
  started : Bool
  error : Option String
deriving DecidableEq

/-- The `organize` message handler (`organize.ts` lines 116–143) up to
its acknowledgment: the response sent and the persisted state as of the
`res.send` (the fired-and-forgotten `executeOrganizeTask` then runs
against that state). -/
def handler (st : TaskState) (settings : Settings) : OrganizeResponse × TaskState :=
  if isRunning st then ({ started := false, error := some "Task already running" }, st)
  else
    let validation := validateSettings settings
    if validation.valid = false then
      ({ started := false
         error := some (validation.error.getD "Please configure API settings in the extension options") },
       st)
    else ({ started := true, error := none }, startTask st)

/-- The three control paths of the programmatic `startOrganize` entry
point. -/
inductive StartOutcome where
  | alreadyRunning
  | invalidSettings (message : String)
  | started
deriving DecidableEq

/-- `startOrganize` (`organize.ts` lines 148–183) up to the launch of
`executeOrganizeTask`: an already-running task causes a bare early
return, invalid settings are persisted through `failTask`, otherwise the
task starts.  (The "Regrouping..." notification is UI-only.) -/
def startOrganize (st : TaskState) (settings : Settings) : StartOutcome × TaskState :=
  if isRunning st then (.alreadyRunning, st)
  else
    let validation := validateSettings settings
    if validation.valid = false then
      let msg := validation.error.getD "Please configure API settings in the extension options"
      (.invalidSettings msg, .error msg)
    else (.started, startTask st)

/-! ## Concrete environments used by the closed witnesses -/

/-- A valid settings record (debug off, collapse off). -/
def demoSettings : Settings :=
  ⟨"https://openrouter.ai/api/v1", "sk-demo", "x-ai/grok-4.1-fast", false, false, "off"⟩

/-- An orchestrator environment whose AI call returns two groups and in
which the creation of the second group fails (`groupOk 1 = false`); no
cancellation of any kind. -/
def envPartialApply : OrchEnv :=
  { settings := demoSettings
    tabs := [⟨1, "a", "https://a.example"⟩]
    abortedAt := fun _ => false
    extCancelled := fun _ => false
    aiResult := .ok [⟨.str "A", "blue", [1]⟩, ⟨.str "B", "red", [1]⟩]
    aiDebug := []
    live := fun _ => true
    groupOk := fun i => i == 0
    activeTabId := none }

/-- As `envPartialApply`, but the persisted state is externally set to
`cancelled` between the first and the second `isCancelled` read. -/
def envCancelAtCheck1 : OrchEnv :=
  { envPartialApply with extCancelled := fun r => r == 1, groupOk := fun _ => true }

/-- The retryable HTTP statuses named by the spec. -/
def retryableStatus (status : Nat) : Prop :=
  status = 429 ∨ status = 500 ∨ status = 502 ∨ status = 503 ∨ status = 504

/-- The success clause of the sanitizer contract written from the spec's
words: "origin + "/" + firstPathSegment (empty path suffix if the path
has no segments)". -/
def specFirstSegmentSuffix (pathname : String) : String :=
  match (pathname.data.splitOn '/').filter (fun s => !s.isEmpty) with
  | [] => ""
  | s :: _ => "/" ++ s.asString

/-! ## Helper lemmas -/

lemma retryable_respOk_false {status : Nat} (h : retryableStatus status) :
    respOk status = false := by
  rcases h with h | h | h | h | h <;> subst h <;> rfl

lemma retryable_isRetryable {status : Nat} (h : retryableStatus status) :
    isRetryableError (some status) = true := by
  rcases h with h | h | h | h | h <;> subst h <;> rfl

lemma retryable_last_catch {status : Nat} (h : retryableStatus status) :
    applyCatch 2 (jsError (statusMessage status)) =
      .done (.error (jsError (statusMessage status))) := by
  rcases h with h | h | h | h | h <;> subst h <;> rfl

lemma runAttempt_retryable_lt (mapping : TabMapping) {status : Nat}
    (h : retryableStatus status) (b : String) (c : ContentModel)
    (attempt : Nat) (ha : attempt < 2) :
    runAttempt mapping ⟨false, false, .response status b c⟩ attempt =
      (.retryStep (jsError s!"API error: {status}"), true) := by
  simp [runAttempt, retryable_respOk_false h, retryable_isRetryable h, MAX_RETRIES, ha]

lemma runAttempt_retryable_last (mapping : TabMapping) {status : Nat}
    (h : retryableStatus status) (b : String) (c : ContentModel) :
    runAttempt mapping ⟨false, false, .response status b c⟩ 2 =
      (.done (.error (jsError (statusMessage status))), true) := by
  simp [runAttempt, retryable_respOk_false h, MAX_RETRIES, retryable_last_catch h]

lemma length_beq_zero_false {tabs : List TabInfo} (h : tabs ≠ []) :
    (tabs.length == 0) = false := by
  cases tabs with
  | nil => exact absurd rfl h
  | cons t ts => rfl

/-- C1: if every attempt's HTTP response carries a retryable status
(429, 500, 502, 503 or 504) and cancellation never fires, `organize`
issues exactly 3 requests (1 initial + 2 retries), waits 1000 ms before
the second and 2000 ms before the third, and then throws the sanitized
transient-API message for the last status — it never starts a fourth
attempt. -/
theorem organize_retryable_exhausts_three_attempts
    (tabs : List TabInfo) (env : Nat → AttemptEnv) (s : Nat → Nat)
    (b : Nat → String) (c : Nat → ContentModel)
    (htabs : tabs ≠ [])
    (hretry : ∀ k, k ≤ 2 → retryableStatus (s k))
    (henv : ∀ k, k ≤ 2 → env k = ⟨false, false, .response (s k) (b k) (c k)⟩) :
    organizeTabsWithAI tabs env =
      ⟨.error (jsError (statusMessage (s 2))), 3, [1000, 2000]⟩ := by
  have h0 := henv 0 (by norm_num)
  have h1 := henv 1 (by norm_num)
  have h2 := henv 2 (by norm_num)
  have r0 := runAttempt_retryable_lt (createTabMapping tabs) (hretry 0 (by norm_num))
    (b 0) (c 0) 0 (by norm_num)
  have r1 := runAttempt_retryable_lt (createTabMapping tabs) (hretry 1 (by norm_num))
    (b 1) (c 1) 1 (by norm_num)
  have r2 := runAttempt_retryable_last (createTabMapping tabs) (hretry 2 (by norm_num))
    (b 2) (c 2)
  simp only [organizeTabsWithAI, length_beq_zero_false htabs, Bool.false_eq_true,
    if_false, MAX_RETRIES]
  simp only [organizeLoop, h0, h1, h2, r0, r1, r2]
  rfl

/-- Closed witness for `organize_retryable_exhausts_three_attempts`:
three 503 responses. -/
theorem organize_retryable_exhausts_three_attempts_witness :
    organizeTabsWithAI [⟨7, "t", "https://t.example"⟩]
      (fun _ => ⟨false, false, .response 503 "overloaded" .missing⟩) =
      ⟨.error (jsError "API service unavailable - try again later"), 3, [1000, 2000]⟩ := by
  have h := organize_retryable_exhausts_three_attempts
    [⟨7, "t", "https://t.example"⟩]
    (fun _ => ⟨false, false, .response 503 "overloaded" .missing⟩)
    (fun _ => 503) (fun _ => "overloaded") (fun _ => .missing)
    (by simp) (fun k _ => by right; right; right; left; rfl) (fun k _ => rfl)
  simpa using h

/-- C6: a 401 response makes `organize` throw the fixed message
"Invalid API key" on the very first attempt — one request, no backoff
delay, no retry — regardless of the provider's error body `b`, which
never reaches the thrown error. -/
theorem organize_401_fails_immediately
    (tabs : List TabInfo) (env : Nat → AttemptEnv) (b : String) (c : ContentModel)
    (htabs : tabs ≠ [])
    (henv : env 0 = ⟨false, false, .response 401 b c⟩) :
    organizeTabsWithAI tabs env = ⟨.error (jsError "Invalid API key"), 1, []⟩ := by
  simp only [organizeTabsWithAI, length_beq_zero_false htabs, Bool.false_eq_true,
    if_false, MAX_RETRIES]
  simp only [organizeLoop, henv]
  rfl

/-- Closed witness for `organize_401_fails_immediately`. -/
theorem organize_401_fails_immediately_witness :
    organizeTabsWithAI [⟨7, "t", "https://t.example"⟩]
      (fun _ => ⟨false, false, .response 401 "Unauthorized: bad key sk-123" .missing⟩) =
      ⟨.error (jsError "Invalid API key"), 1, []⟩ :=
  organize_401_fails_immediately [⟨7, "t", "https://t.example"⟩]
    (fun _ => ⟨false, false, .response 401 "Unauthorized: bad key sk-123" .missing⟩)
    "Unauthorized: bad key sk-123" .missing (by simp) rfl

lemma runAttempt_aborted (mapping : TabMapping) (e : AttemptEnv) (attempt : Nat)
    (h : e.abortedBeforeFetch = true) :
    runAttempt mapping e attempt = (applyCatch attempt abortError, false) := by
  simp [runAttempt, h]

/-- C9: if the first attempt fails retryably and the cancellation signal
becomes set during the 1000 ms backoff delay, `organize` throws the
`AbortError` — classified as a cancellation by its name — after exactly
one issued request: the second request is never made. -/
theorem organize_cancel_during_backoff
    (tabs : List TabInfo) (env : Nat → AttemptEnv) (status : Nat)
    (b : String) (c : ContentModel)
    (htabs : tabs ≠ [])
    (hs : retryableStatus status)
    (henv0 : env 0 = ⟨false, false, .response status b c⟩)
    (h1top : (env 1).abortedAtLoopTop = false)
    (h1fetch : (env 1).abortedBeforeFetch = true) :
    organizeTabsWithAI tabs env = ⟨.error abortError, 1, [1000]⟩ ∧
      abortError.name = "AbortError" := by
  refine ⟨?_, rfl⟩
  have r0 := runAttempt_retryable_lt (createTabMapping tabs) hs b c 0 (by norm_num)
  have r1 := runAttempt_aborted (createTabMapping tabs) (env 1) 1 h1fetch
  simp only [organizeTabsWithAI, length_beq_zero_false htabs, Bool.false_eq_true,
    if_false, MAX_RETRIES]
  simp only [organizeLoop, henv0, r0, r1, h1top]
  rfl

/-- Closed witness for `organize_cancel_during_backoff`: a 429 then an
abort during the delay. -/
theorem organize_cancel_during_backoff_witness :
    organizeTabsWithAI [⟨7, "t", "https://t.example"⟩]
      (fun k => if k == 0 then ⟨false, false, .response 429 "slow down" .missing⟩
        else ⟨false, true, .response 429 "slow down" .missing⟩) =
      ⟨.error abortError, 1, [1000]⟩ := by
  have h := organize_cancel_during_backoff [⟨7, "t", "https://t.example"⟩]
    (fun k => if k == 0 then ⟨false, false, .response 429 "slow down" .missing⟩
      else ⟨false, true, .response 429 "slow down" .missing⟩)
    429 "slow down" .missing (by simp) (Or.inl rfl) rfl rfl rfl
  exact h.1

lemma mapGroups_ok_length (mapping : TabMapping) :
    ∀ (gs : List JsonVal) (idx : Nat) (out : List TabGroup),
      mapGroups mapping idx gs = .ok out → out.length = gs.length := by
  intro gs
  induction gs with
  | nil =>
    intro idx out h
    simp only [mapGroups] at h
    cases h
    rfl
  | cons g rest ih =>
    intro idx out h
    simp only [mapGroups] at h
    split at h
    · cases h
    · split at h
      · cases h
      · split at h
        · cases h
        · cases h
          simp [ih (idx + 1) _ (by assumption)]

lemma applyCatch_result (attempt : Nat) (err : JsError) :
    applyCatch attempt err = .done (.error err) ∨ applyCatch attempt err = .retryStep err := by
  unfold applyCatch
  split
  · exact Or.inl rfl
  · split
    · exact Or.inr rfl
    · exact Or.inl rfl

lemma applyCatch_ne_done_ok (attempt : Nat) (err : JsError) (gs : List TabGroup) :
    applyCatch attempt err ≠ .done (.ok gs) := by
  rcases applyCatch_result attempt err with h | h <;> simp [h]

lemma runAttempt_cases (mapping : TabMapping) (e : AttemptEnv) (attempt : Nat) :
    (∃ gs v, runAttempt mapping e attempt = (.done (.ok gs), true) ∧
        parseResponseVal v mapping = .ok gs)
    ∨ (∃ err b, runAttempt mapping e attempt = (applyCatch attempt err, b))
    ∨ (∃ err, runAttempt mapping e attempt = (.retryStep err, true)) := by
  unfold runAttempt
  split
  · exact Or.inr (Or.inl ⟨_, _, rfl⟩)
  · split
    · exact Or.inr (Or.inl ⟨_, _, rfl⟩)
    · split
      · split
        · exact Or.inr (Or.inl ⟨_, _, rfl⟩)
        · exact Or.inr (Or.inl ⟨_, _, rfl⟩)
        · split
          · exact Or.inl ⟨_, _, rfl, by assumption⟩
          · exact Or.inr (Or.inl ⟨_, _, rfl⟩)
      · split
        · exact Or.inr (Or.inr ⟨_, rfl⟩)
        · exact Or.inr (Or.inl ⟨_, _, rfl⟩)

lemma runAttempt_ok (mapping : TabMapping) (e : AttemptEnv) (attempt : Nat)
    (gs : List TabGroup) (fetched : Bool)
    (h : runAttempt mapping e attempt = (.done (.ok gs), fetched)) :
    ∃ v, parseResponseVal v mapping = .ok gs := by
  rcases runAttempt_cases mapping e attempt with ⟨gs', v, heq, hp⟩ | ⟨err, b, heq⟩ | ⟨err, heq⟩
  · rw [heq] at h
    have h1 : IterStep.done (Except.ok gs') = IterStep.done (Except.ok gs) := congrArg Prod.fst h
    obtain rfl : gs' = gs := by simpa using h1
    exact ⟨v, hp⟩
  · rw [heq] at h
    have h1 : applyCatch attempt err = IterStep.done (Except.ok gs) := congrArg Prod.fst h
    exact absurd h1 (applyCatch_ne_done_ok _ _ _)
  · rw [heq] at h
    have h1 : IterStep.retryStep err = IterStep.done (Except.ok gs) := congrArg Prod.fst h
    simp at h1

lemma parseResponseVal_ok_nonempty (v : JsonVal) (mapping : TabMapping)
    (out : List TabGroup) (h : parseResponseVal v mapping = .ok out) : out ≠ [] := by
  simp only [parseResponseVal] at h
  split at h
  · cases h
  · split at h
    · split at h
      · cases h
      · rename_i gs hgroups hlen
        have hl := mapGroups_ok_length mapping gs 0 out h
        intro hnil
        subst hnil
        simp at hl
        simp [← hl] at hlen
    · cases h

lemma organizeLoop_ok (env : Nat → AttemptEnv) (mapping : TabMapping) :
    ∀ (fuel attempt : Nat) (le : Option JsError) (fc : Nat) (ds : List Nat)
      (gs : List TabGroup),
      (organizeLoop env mapping attempt fuel le fc ds).result = .ok gs →
      ∃ v, parseResponseVal v mapping = .ok gs := by
  intro fuel
  induction fuel with
  | zero =>
    intro attempt le fc ds gs h
    simp [organizeLoop] at h
  | succ fuel ih =>
    intro attempt le fc ds gs h
    simp only [organizeLoop] at h
    split at h
    · simp at h
    · split at h
      · rename_i r fetched heq
        simp only at h
        rw [h] at heq
        exact runAttempt_ok mapping (env attempt) attempt gs fetched heq
      · exact ih _ _ _ _ gs h

/-- C7: an otherwise-successful response whose parsed payload has an
empty `groups` array makes `organize` throw the distinct zero-groups
message on that same attempt (no retry); and in full generality a
successful return of `organize` never carries zero groups. -/
theorem organize_zero_groups_error_never_empty_success :
    (∀ (tabs : List TabInfo) (env : Nat → AttemptEnv) (b : String)
        (fields : List (String × JsonVal)),
      tabs ≠ [] →
      JsonVal.getField (.obj fields) "groups" = some (.arr []) →
      env 0 = ⟨false, false, .response 200 b (.json (.obj fields))⟩ →
      organizeTabsWithAI tabs env =
        ⟨.error (jsError "AI returned zero groups - try again or check your prompt"), 1, []⟩)
    ∧ ∀ (tabs : List TabInfo) (env : Nat → AttemptEnv) (gs : List TabGroup),
        (organizeTabsWithAI tabs env).result = .ok gs → gs ≠ [] := by
  constructor
  · intro tabs env b fields htabs hg henv
    have hparse : parseResponseVal (.obj fields) (createTabMapping tabs) =
        .error (jsError "AI returned zero groups - try again or check your prompt") := by
      simp [parseResponseVal, JsonVal.truthy, JsonVal.isObjectType, hg]
    simp only [organizeTabsWithAI, length_beq_zero_false htabs, Bool.false_eq_true,
      if_false, MAX_RETRIES]
    simp only [organizeLoop, henv, runAttempt, hparse]
    rfl
  · intro tabs env gs h
    rw [organizeTabsWithAI] at h
    split at h
    · simp at h
    · obtain ⟨v, hv⟩ := organizeLoop_ok env (createTabMapping tabs) _ _ _ _ _ gs h
      exact parseResponseVal_ok_nonempty v _ gs hv

/-- Closed witness for `organize_zero_groups_error_never_empty_success`:
the zero-group payload `{"groups":[]}` produces the zero-groups error,
and a concrete successful run returns a non-empty group list. -/
theorem organize_zero_groups_error_never_empty_success_witness :
    organizeTabsWithAI [⟨1, "Gmail", "https://mail.google.com/mail/u/0/#inbox"⟩]
        (fun _ => ⟨false, false, .response 200 "" (.json (.obj [("groups", .arr [])]))⟩) =
      ⟨.error (jsError "AI returned zero groups - try again or check your prompt"), 1, []⟩
    ∧ ([⟨.str "Work", "grey", [1]⟩] : List TabGroup) ≠ [] := by
  constructor
  · exact organize_zero_groups_error_never_empty_success.1
      [⟨1, "Gmail", "https://mail.google.com/mail/u/0/#inbox"⟩]
      (fun _ => ⟨false, false, .response 200 "" (.json (.obj [("groups", .arr [])]))⟩)
      "" [("groups", .arr [])] (by simp) rfl rfl
  · exact organize_zero_groups_error_never_empty_success.2
      [⟨1, "Gmail", "https://mail.google.com/mail/u/0/#inbox"⟩]
      (fun _ => ⟨false, false, .response 200 ""
        (.json (.obj [("groups", .arr
          [.obj [("name", .str "Work"), ("color", .str "bogus"), ("tabIds", .arr [.num 0])]])]))⟩)
      [⟨.str "Work", "grey", [1]⟩] (by rfl)

lemma lookup_mem_snd : ∀ (l : List (Nat × Nat)) (k v : Nat),
    l.lookup k = some v → v ∈ l.map Prod.snd := by
  intro l
  induction l with
  | nil => intro k v h; cases h
  | cons p rest ih =>
    intro k v h
    rw [List.lookup] at h
    split at h
    · cases h
      exact List.mem_cons_self _ _
    · exact List.mem_cons_of_mem _ (ih k v h)

lemma enumFrom_map_id_field : ∀ (l : List TabInfo) (n : Nat),
    (l.enumFrom n).map (fun p => p.2.id) = l.map (fun t => t.id) := by
  intro l
  induction l with
  | nil => intro n; rfl
  | cons t rest ih => intro n; simp [List.enumFrom, ih]

lemma mapping_values (tabs : List TabInfo) :
    ((createTabMapping tabs).indexToId).map Prod.snd = tabs.map (fun t => t.id) := by
  simp only [createTabMapping, List.map_map]
  have : (Prod.snd ∘ fun p : Nat × TabInfo => (p.1, p.2.id)) = fun p : Nat × TabInfo => p.2.id := rfl
  rw [this, show tabs.enum = tabs.enumFrom 0 from rfl, enumFrom_map_id_field]

lemma mappingGet_mem (tabs : List TabInfo) (n : Int) (i : Nat)
    (h : mappingGet (createTabMapping tabs).indexToId n = some i) :
    i ∈ tabs.map (fun t => t.id) := by
  unfold mappingGet at h
  split at h
  · cases h
  · rw [← mapping_values tabs]
    exact lookup_mem_snd _ _ _ h

lemma resolve_mem (m : List (Nat × Nat)) (xs : List JsonVal) (i : Nat)
    (h : i ∈ resolveRawTabIds m xs) : ∃ n, mappingGet m n = some i := by
  simp only [resolveRawTabIds, List.mem_filterMap, List.mem_map, id_eq] at h
  obtain ⟨a, ⟨n, -, hn⟩, ha⟩ := h
  subst ha
  exact ⟨n, hn⟩

lemma mapGroups_tabIds (mapping : TabMapping) :
    ∀ (gs : List JsonVal) (idx : Nat) (out : List TabGroup),
      mapGroups mapping idx gs = .ok out →
      ∀ g ∈ out, ∃ xs, g.tabIds = resolveRawTabIds mapping.indexToId xs := by
  intro gs
  induction gs with
  | nil =>
    intro idx out h
    simp only [mapGroups] at h
    cases h
    intro g hg
    cases hg
  | cons g rest ih =>
    intro idx out h
    simp only [mapGroups] at h
    split at h
    · cases h
    · split at h
      · cases h
      · split at h
        · cases h
        · cases h
          intro g' hg'
          rcases List.mem_cons.mp hg' with rfl | hmem
          · exact ⟨_, rfl⟩
          · exact ih (idx + 1) _ (by assumption) g' hmem

lemma enumFrom_fst_lt : ∀ (l : List TabInfo) (n : Nat) (p : Nat × TabInfo),
    p ∈ l.enumFrom n → p.1 < n + l.length := by
  intro l
  induction l with
  | nil => intro n p h; cases h
  | cons t rest ih =>
    intro n p h
    simp only [List.enumFrom] at h
    rcases List.mem_cons.mp h with rfl | hmem
    · simp
    · have := ih (n + 1) p hmem
      simp only [List.length_cons]
      omega

lemma lookup_none_of_ge : ∀ (l : List (Nat × Nat)) (N k : Nat),
    (∀ p ∈ l, p.1 < N) → N ≤ k → l.lookup k = none := by
  intro l
  induction l with
  | nil => intro N k _ _; rfl
  | cons p rest ih =>
    intro N k hb hk
    rw [List.lookup]
    have hp := hb p (List.mem_cons_self _ _)
    have : (k == p.1) = false := by
      simp only [beq_eq_false_iff_ne, ne_eq]
      omega
    rw [this]
    exact ih N k (fun q hq => hb q (List.mem_cons_of_mem _ hq)) hk

lemma mappingGet_out_of_range (tabs : List TabInfo) (n : Int)
    (h : n < 0 ∨ (tabs.length : Int) ≤ n) :
    mappingGet (createTabMapping tabs).indexToId n = none := by
  unfold mappingGet
  rcases h with h | h
  · rw [if_pos h]
  · have h0 : ¬n < 0 := by omega
    rw [if_neg h0]
    apply lookup_none_of_ge _ tabs.length
    · intro p hp
      simp only [createTabMapping, List.mem_map] at hp
      obtain ⟨q, hq, rfl⟩ := hp
      have := enumFrom_fst_lt tabs 0 q (by exact hq)
      simpa using this
    · omega

lemma resolve_drop (m : List (Nat × Nat)) (xs ys : List JsonVal) (n : Int)
    (h : mappingGet m n = none) :
    resolveRawTabIds m (xs ++ .num n :: ys) = resolveRawTabIds m (xs ++ ys) := by
  simp [resolveRawTabIds, List.filterMap_append, List.filterMap_cons, h]

lemma parseResponseVal_ok_mapGroups (v : JsonVal) (mapping : TabMapping)
    (out : List TabGroup) (h : parseResponseVal v mapping = .ok out) :
    ∃ raw, mapGroups mapping 0 raw = .ok out := by
  simp only [parseResponseVal] at h
  split at h
  · cases h
  · split at h
    · split at h
      · cases h
      · exact ⟨_, h⟩
    · cases h

/-- C4: every group a successful `organize` returns refers only to tab
identifiers of the input snapshot (the ordinal mapping can only produce
snapshot ids); and an ordinal outside the snapshot range `0..N-1`
resolves to nothing, so it is silently dropped from the group's resolved
`tabIds` — removing it from the raw array leaves the resolution
unchanged — rather than raising an error. -/
theorem organize_tabIds_subset_out_of_range_dropped :
    (∀ (tabs : List TabInfo) (env : Nat → AttemptEnv) (gs : List TabGroup),
      tabs ≠ [] →
      (organizeTabsWithAI tabs env).result = .ok gs →
      ∀ g ∈ gs, ∀ i ∈ g.tabIds, i ∈ tabs.map (fun t => t.id))
    ∧ ∀ (tabs : List TabInfo) (xs ys : List JsonVal) (n : Int),
        (n < 0 ∨ (tabs.length : Int) ≤ n) →
        resolveRawTabIds (createTabMapping tabs).indexToId (xs ++ .num n :: ys) =
          resolveRawTabIds (createTabMapping tabs).indexToId (xs ++ ys) := by
  constructor
  · intro tabs env gs _htabs h
    rw [organizeTabsWithAI] at h
    split at h
    · simp at h
    · obtain ⟨v, hv⟩ := organizeLoop_ok env (createTabMapping tabs) _ _ _ _ _ gs h
      obtain ⟨raw, hraw⟩ := parseResponseVal_ok_mapGroups v _ gs hv
      intro g hg i hi
      obtain ⟨xs, hxs⟩ := mapGroups_tabIds _ raw 0 gs hraw g hg
      rw [hxs] at hi
      obtain ⟨n, hn⟩ := resolve_mem _ xs i hi
      exact mappingGet_mem tabs n i hn
  · intro tabs xs ys n h
    exact resolve_drop _ xs ys n (mappingGet_out_of_range tabs n h)

/-- Closed witness for `organize_tabIds_subset_out_of_range_dropped`:
a 2-tab snapshot with the response group `{"name":"Work","color":
"bogus","tabIds":[0,5]}` — the returned ids live in the snapshot, and
dropping the out-of-range ordinal 5 leaves the resolution unchanged. -/
theorem organize_tabIds_subset_out_of_range_dropped_witness :
    (∀ g ∈ ([⟨.str "Work", "grey", [1]⟩] : List TabGroup), ∀ i ∈ g.tabIds,
      i ∈ ([⟨1, "Gmail", "https://mail.google.com/mail/u/0/#inbox"⟩,
            ⟨2, "Repo", "https://github.com/org/repo/pull/5"⟩] : List TabInfo).map
        (fun t => t.id))
    ∧ resolveRawTabIds
        (createTabMapping [⟨1, "Gmail", "https://mail.google.com/mail/u/0/#inbox"⟩,
          ⟨2, "Repo", "https://github.com/org/repo/pull/5"⟩]).indexToId
        ([.num 0] ++ .num 5 :: []) =
      resolveRawTabIds
        (createTabMapping [⟨1, "Gmail", "https://mail.google.com/mail/u/0/#inbox"⟩,
          ⟨2, "Repo", "https://github.com/org/repo/pull/5"⟩]).indexToId
        ([.num 0] ++ []) := by
  constructor
  · exact organize_tabIds_subset_out_of_range_dropped.1
      [⟨1, "Gmail", "https://mail.google.com/mail/u/0/#inbox"⟩,
        ⟨2, "Repo", "https://github.com/org/repo/pull/5"⟩]
      (fun _ => ⟨false, false, .response 200 ""
        (.json (.obj [("groups", .arr
          [.obj [("name", .str "Work"), ("color", .str "bogus"),
            ("tabIds", .arr [.num 0, .num 5])]])]))⟩)
      [⟨.str "Work", "grey", [1]⟩] (by simp) (by rfl)
  · exact organize_tabIds_subset_out_of_range_dropped.2
      [⟨1, "Gmail", "https://mail.google.com/mail/u/0/#inbox"⟩,
        ⟨2, "Repo", "https://github.com/org/repo/pull/5"⟩]
      [.num 0] [] 5 (Or.inr (by norm_num))

lemma splitOnP_subset_mem {p : Char → Bool} :
    ∀ (l part : List Char), part ∈ l.splitOnP p → ∀ c ∈ part, c ∈ l := by
  intro l
  induction l with
  | nil =>
    intro part h c hc
    rw [List.splitOnP_nil] at h
    simp at h
    subst h
    cases hc
  | cons x xs ih =>
    intro part h c hc
    rw [List.splitOnP_cons] at h
    by_cases hp : p x
    · rw [if_pos hp] at h
      rcases List.mem_cons.mp h with rfl | hmem
      · cases hc
      · exact List.mem_cons_of_mem _ (ih part hmem c hc)
    · rw [if_neg hp] at h
      obtain ⟨hd, tl, heq⟩ := List.exists_cons_of_ne_nil (List.splitOnP_ne_nil p xs)
      rw [heq] at h
      simp only [List.modifyHead] at h
      rcases List.mem_cons.mp h with rfl | hmem
      · rcases List.mem_cons.mp hc with rfl | hc2
        · exact List.mem_cons_self _ _
        · exact List.mem_cons_of_mem _ (ih hd (heq ▸ List.mem_cons_self hd tl) c hc2)
      · exact List.mem_cons_of_mem _ (ih part (heq ▸ List.mem_cons_of_mem hd hmem) c hc)

lemma splitOn_subset_mem (l part : List Char) (sep : Char)
    (h : part ∈ l.splitOn sep) : ∀ c ∈ part, c ∈ l :=
  splitOnP_subset_mem l part (by simpa [List.splitOn] using h)

lemma mem_afterLastAt {c : Char} {cs : List Char} (h : c ∈ afterLastAt cs) : c ∈ cs := by
  unfold afterLastAt at h
  rw [List.mem_reverse] at h
  exact List.mem_reverse.mp ((List.takeWhile_prefix _).subset h)

lemma authorityEnd_false_pathEnd {c : Char} (h : authorityEnd c = false) :
    pathEnd c = false := by
  simp only [authorityEnd, Bool.or_eq_false_iff] at h
  simp [pathEnd, h.1.2, h.2]

lemma parseAuthority_chars (rest host path : List Char)
    (h : parseAuthority rest = (host, path)) :
    (∀ c ∈ host, authorityEnd c = false) ∧ ∀ c ∈ path, pathEnd c = false := by
  simp only [parseAuthority] at h
  injection h with h1 h2
  constructor
  · intro c hc
    rw [← h1] at hc
    have := List.mem_takeWhile_imp (mem_afterLastAt hc)
    simpa using this
  · intro c hc
    rw [← h2] at hc
    have := List.mem_takeWhile_imp hc
    simpa using this

lemma parseSpecial_chars (scheme : String) (post : List Char) (u : URLParts)
    (hs : scheme = "http" ∨ scheme = "https")
    (h : parseSpecial scheme post = some u) :
    (∀ c ∈ u.origin.data, pathEnd c = false) ∧ ∀ c ∈ u.pathname.data, pathEnd c = false := by
  unfold parseSpecial at h
  split at h
  · rename_i rest
    split at h
    · cases h
    · cases h
      obtain ⟨hhostc, hpathc⟩ := parseAuthority_chars rest _ _ rfl
      refine ⟨?_, fun c hc => hpathc c hc⟩
      intro c hc
      simp only [String.data_append] at hc
      rcases List.mem_append.mp hc with hc12 | hc4
      · rcases List.mem_append.mp hc12 with hc1 | hc3
        · rcases hs with hs | hs <;> subst hs <;> fin_cases hc1 <;> rfl
        · fin_cases hc3 <;> rfl
      · exact authorityEnd_false_pathEnd (hhostc c hc4)
  · cases h

lemma parseOpaque_chars (scheme : String) (post : List Char) (u : URLParts)
    (h : parseOpaque scheme post = some u) :
    (∀ c ∈ u.origin.data, pathEnd c = false) ∧ ∀ c ∈ u.pathname.data, pathEnd c = false := by
  unfold parseOpaque at h
  split at h
  · rename_i rest
    cases h
    obtain ⟨-, hpathc⟩ := parseAuthority_chars rest _ _ rfl
    refine ⟨?_, fun c hc => hpathc c hc⟩
    intro c hc
    fin_cases hc <;> rfl
  · cases h
    constructor
    · intro c hc
      fin_cases hc <;> rfl
    · intro c hc
      have := List.mem_takeWhile_imp hc
      simpa using this

lemma parseURL_chars (url : String) (u : URLParts) (h : parseURL url = some u) :
    (∀ c ∈ u.origin.data, pathEnd c = false) ∧ ∀ c ∈ u.pathname.data, pathEnd c = false := by
  unfold parseURL at h
  split at h
  · cases h
  · split at h
    · cases h
    · split at h
      · split at h
        · rename_i hspecial
          refine parseSpecial_chars _ _ u ?_ h
          rcases Bool.or_eq_true_iff.mp hspecial with hx | hx
          · exact Or.inl (by simpa using hx)
          · exact Or.inr (by simpa using hx)
        · exact parseOpaque_chars _ _ u h
      · cases h

lemma specFirstSegmentSuffix_chars (pathname : String)
    (hp : ∀ c ∈ pathname.data, pathEnd c = false) :
    ∀ c ∈ (specFirstSegmentSuffix pathname).data, pathEnd c = false := by
  unfold specFirstSegmentSuffix
  split
  · intro c hc
    cases hc
  · rename_i s rest heq
    intro c hc
    simp only [String.data_append] at hc
    rcases List.mem_append.mp hc with hc1 | hc2
    · fin_cases hc1
      rfl
    · have hs : s ∈ (pathname.data.splitOn '/').filter (fun s => !s.isEmpty) :=
        heq ▸ List.mem_cons_self s rest
      exact hp c (splitOn_subset_mem _ s '/' (List.mem_of_mem_filter hs) c hc2)

/-- C8: `sanitizeUrl` is total; on every URL the modelled platform
parser accepts it returns exactly `origin ++ "/" ++ firstPathSegment`
(empty suffix when the path has no segments) and its output contains no
`'?'` and no `'#'` — so neither the query string, nor the fragment, nor
any path segment beyond the first survives; on every parse failure it
returns the first 50 characters of the raw input (a bounded-length
prefix); and the two spec examples compute as stated. -/
theorem sanitizeUrl_contract :
    (∀ (url : String) (u : URLParts), parseURL url = some u →
      sanitizeUrl url = u.origin ++ specFirstSegmentSuffix u.pathname ∧
      '?' ∉ (sanitizeUrl url).data ∧ '#' ∉ (sanitizeUrl url).data)
    ∧ (∀ url : String, url ≠ "" → parseURL url = none →
      sanitizeUrl url = (url.data.take 50).asString ∧
      (sanitizeUrl url).data <+: url.data ∧ (sanitizeUrl url).length ≤ 50)
    ∧ sanitizeUrl "https://mail.google.com/mail/u/0/#inbox" = "https://mail.google.com/mail"
    ∧ sanitizeUrl "https://github.com/org/repo/pull/5" = "https://github.com/org" := by
  refine ⟨?_, ?_, by decide, by decide⟩
  · intro url u h
    have hne : url ≠ "" := by
      intro h0
      subst h0
      rw [show parseURL "" = none from rfl] at h
      cases h
    have hchars := parseURL_chars url u h
    have hout : sanitizeUrl url = u.origin ++ specFirstSegmentSuffix u.pathname := by
      unfold sanitizeUrl
      rw [if_neg hne, h]
      rfl
    refine ⟨hout, ?_, ?_⟩
    · intro hc
      rw [hout] at hc
      simp only [String.data_append] at hc
      rcases List.mem_append.mp hc with hc1 | hc2
      · have := hchars.1 _ hc1
        simp [pathEnd] at this
      · have := specFirstSegmentSuffix_chars u.pathname hchars.2 _ hc2
        simp [pathEnd] at this
    · intro hc
      rw [hout] at hc
      simp only [String.data_append] at hc
      rcases List.mem_append.mp hc with hc1 | hc2
      · have := hchars.1 _ hc1
        simp [pathEnd] at this
      · have := specFirstSegmentSuffix_chars u.pathname hchars.2 _ hc2
        simp [pathEnd] at this
  · intro url hne h
    have hout : sanitizeUrl url = (url.data.take 50).asString := by
      unfold sanitizeUrl
      rw [if_neg hne, h]
    refine ⟨hout, ?_, ?_⟩
    · rw [hout]
      exact List.take_prefix 50 url.data
    · rw [hout, List.length_asString]
      simp [List.length_take]

/-- Closed witness for `sanitizeUrl_contract`: the Gmail URL on the
parse-success clause and a colon-free string on the parse-failure
clause. -/
theorem sanitizeUrl_contract_witness :
    (sanitizeUrl "https://mail.google.com/mail/u/0/#inbox" =
        "https://mail.google.com" ++ specFirstSegmentSuffix "/mail/u/0/" ∧
      '?' ∉ (sanitizeUrl "https://mail.google.com/mail/u/0/#inbox").data ∧
      '#' ∉ (sanitizeUrl "https://mail.google.com/mail/u/0/#inbox").data)
    ∧ sanitizeUrl "not a url" = ("not a url".data.take 50).asString := by
  constructor
  · exact sanitizeUrl_contract.1 "https://mail.google.com/mail/u/0/#inbox"
      ⟨"https:", "https://mail.google.com", "/mail/u/0/"⟩ (by decide)
  · exact (sanitizeUrl_contract.2.1 "not a url" (by decide) (by decide)).1

lemma readCancelled_effects (env : OrchEnv) (s : OrchSt) :
    (readCancelled env s).2.effects = s.effects := rfl

lemma readCancelled_log (env : OrchEnv) (s : OrchSt) :
    (readCancelled env s).2.log = s.log := rfl

lemma readCancelled_true_state (env : OrchEnv) (s : OrchSt)
    (h : (readCancelled env s).1 = true) :
    (readCancelled env s).2.state = .cancelled := by
  unfold readCancelled at h ⊢
  by_cases hx : env.extCancelled s.readIdx = true
  · simp [hx]
  · simp only [Bool.not_eq_true] at hx
    simp only [hx, Bool.false_eq_true, if_false] at h ⊢
    cases hst : s.state <;> simp [hst, isCancelledState] at h ⊢

lemma readCancelled_false_state (env : OrchEnv) (s : OrchSt)
    (h : (readCancelled env s).1 = false) :
    (readCancelled env s).2.state = s.state := by
  unfold readCancelled at h ⊢
  by_cases hx : env.extCancelled s.readIdx = true
  · simp [hx, isCancelledState] at h
  · simp only [Bool.not_eq_true] at hx
    simp [hx]

lemma fromAI_cancel_aux (env : OrchEnv) (s : OrchSt) (k : Nat) (r : OrchResult)
    (hr : executeFromAI env s = r)
    (hc : ∀ n, OrchEffect.wroteCompleted n ∉ s.effects)
    (he : ∀ m, OrchEffect.wroteError m ∉ s.effects)
    (ha : ∀ a, OrchEffect.appliedGroups a ∉ s.effects)
    (hst : ∃ p, s.state = TaskState.running p)
    (h : r.exit = .earlyCancel k) :
    (∀ n, OrchEffect.wroteCompleted n ∉ r.effects) ∧
    (∀ m, OrchEffect.wroteError m ∉ r.effects) ∧
    3 ≤ k ∧
    (k ≤ 3 → ∀ a, OrchEffect.appliedGroups a ∉ r.effects) ∧
    (r.final = .cancelled ∨ ∃ p, r.final = .running p) := by
  obtain ⟨p, hp⟩ := hst
  simp only [executeFromAI] at hr
  repeat' split at hr
  all_goals cases hr
  all_goals simp only [finish] at h
  all_goals first
    | (simp at h; done)
    | (cases h
       refine ⟨fun n => ?_, fun m => ?_, by omega, fun hk a => ?_, ?_⟩ <;>
         simp_all [finish, pushLog, pushLogs, pushEffect, writeState,
           readCancelled_effects, readCancelled_true_state, readCancelled_false_state])

lemma cancellation_aux (env : OrchEnv) (st0 : TaskState) (k : Nat) (r : OrchResult)
    (hr : executeOrganizeTask env st0 = r) (h : r.exit = .earlyCancel k) :
    (∀ n, OrchEffect.wroteCompleted n ∉ r.effects) ∧
    (∀ m, OrchEffect.wroteError m ∉ r.effects) ∧
    (k ≤ 1 → OrchEffect.ungroupedAll ∉ r.effects) ∧
    (k ≤ 2 → OrchEffect.calledAI ∉ r.effects) ∧
    (k ≤ 3 → ∀ a, OrchEffect.appliedGroups a ∉ r.effects) ∧
    (r.final = .cancelled ∨ ∃ p, r.final = .running p) := by
  simp only [executeOrganizeTask] at hr
  repeat' split at hr
  all_goals first
    | (cases hr
       simp only [finish] at h
       first
         | (simp at h; done)
         | (cases h
            refine ⟨fun n => ?_, fun m => ?_, fun hk => ?_, fun hk => ?_, fun hk a => ?_, ?_⟩ <;>
              simp_all [finish, pushLog, pushLogs, pushEffect, writeState,
                readCancelled_effects, readCancelled_true_state, readCancelled_false_state]))
    | (have hres := fromAI_cancel_aux env _ k r hr
        (by simp [pushLog, pushLogs, pushEffect, writeState, readCancelled_effects])
        (by simp [pushLog, pushLogs, pushEffect, writeState, readCancelled_effects])
        (by simp [pushLog, pushLogs, pushEffect, writeState, readCancelled_effects])
        ⟨.callingAI, rfl⟩ h
       obtain ⟨h1, h2, h3, h4, h5⟩ := hres
       exact ⟨h1, h2, fun hk => absurd hk (by omega), fun hk => absurd hk (by omega), h4, h5⟩)

lemma readCancelled_fst (env : OrchEnv) (s : OrchSt) :
    (readCancelled env s).1 = (env.extCancelled s.readIdx || isCancelledState s.state) := by
  unfold readCancelled
  by_cases hx : env.extCancelled s.readIdx = true <;> simp [hx, isCancelledState]

lemma OrchSt_ite_state (c : Prop) [Decidable c] (a b : OrchSt) :
    (if c then a else b).state = if c then a.state else b.state := by
  split <;> rfl

lemma OrchSt_ite_effects (c : Prop) [Decidable c] (a b : OrchSt) :
    (if c then a else b).effects = if c then a.effects else b.effects := by
  split <;> rfl

lemma OrchSt_ite_log (c : Prop) [Decidable c] (a b : OrchSt) :
    (if c then a else b).log = if c then a.log else b.log := by
  split <;> rfl

lemma createTabGroupsLoop_eq (live groupOk : Nat → Bool) (c : Bool) (a : Option Nat) :
    ∀ (groups : List TabGroup) (i : Nat),
      createTabGroupsLoop live groupOk c a i groups =
        (groups.enumFrom i).filterMap (applyStep live groupOk c a) := by
  intro groups
  induction groups with
  | nil => intro i; rfl
  | cons g rest ih =>
    intro i
    simp only [createTabGroupsLoop, List.enumFrom, List.filterMap_cons]
    by_cases h1 : (filterExistingTabs live g.tabIds).isEmpty
    · simp [applyStep, h1, ih]
    · by_cases h2 : groupOk i = true
      · simp [applyStep, h1, h2, ih]
      · simp [applyStep, h1, h2, ih]

lemma createTabGroups_eq_filterMap (groups : List TabGroup) (live groupOk : Nat → Bool)
    (c : Bool) (a : Option Nat) :
    createTabGroups groups live groupOk c a =
      groups.enum.filterMap (applyStep live groupOk c a) := by
  rw [createTabGroups, createTabGroupsLoop_eq]
  rfl

lemma fromAI_completed_aux (env : OrchEnv) (s : OrchSt) (gs : List TabGroup) (r : OrchResult)
    (hr : executeFromAI env s = r) (hai : env.aiResult = .ok gs)
    (hab : env.abortedAt 3 = false)
    (hext : ∀ i, env.extCancelled i = false)
    (p : TaskPhase) (hp : s.state = TaskState.running p) :
    r.exit = .completedOk ∧ (∃ d, r.final = .completed gs.length d) ∧
    OrchEffect.appliedGroups (createTabGroups gs env.live env.groupOk
      env.settings.collapseGroups env.activeTabId) ∈ r.effects := by
  simp only [executeFromAI, hai, hab, Bool.false_eq_true, if_false, readCancelled_fst,
    readCancelled_effects, hext, pushLog, pushLogs, pushEffect, writeState, isCancelledState,
    OrchSt_ite_state, OrchSt_ite_effects, ite_self,
    hp, Bool.or_self, Bool.or_false, Bool.false_or] at hr
  cases hr
  refine ⟨rfl, ⟨_, rfl⟩, ?_⟩
  simp [finish, OrchSt_ite_effects, ite_self, pushLog, pushEffect, writeState]

/-- C5: whenever `executeOrganizeTask` stops at a cancellation
checkpoint — the cooperative token or the persisted `cancelled` record
observed at a phase boundary — the remaining phases are not performed
(no ungrouping before checkpoint 1 is passed, no AI call past checkpoint
2, no group application past checkpoint 3), no `completed` and no
`error` state is ever written in that run, and the final persisted
record is the untouched `cancelled` record or the still-`running`
record — a cancellation is never reported as an error. -/
theorem cancellation_at_boundary_stops (env : OrchEnv) (st0 : TaskState) (k : Nat)
    (h : (executeOrganizeTask env st0).exit = .earlyCancel k) :
    (∀ n, OrchEffect.wroteCompleted n ∉ (executeOrganizeTask env st0).effects) ∧
    (∀ m, OrchEffect.wroteError m ∉ (executeOrganizeTask env st0).effects) ∧
    (k ≤ 1 → OrchEffect.ungroupedAll ∉ (executeOrganizeTask env st0).effects) ∧
    (k ≤ 2 → OrchEffect.calledAI ∉ (executeOrganizeTask env st0).effects) ∧
    (k ≤ 3 → ∀ a, OrchEffect.appliedGroups a ∉ (executeOrganizeTask env st0).effects) ∧
    ((executeOrganizeTask env st0).final = .cancelled ∨
      ∃ p, (executeOrganizeTask env st0).final = .running p) :=
  cancellation_aux env st0 k _ rfl h

/-- Closed witness for `cancellation_at_boundary_stops`: external
cancellation lands before the second `isCancelled` read (checkpoint 1). -/
theorem cancellation_at_boundary_stops_witness :
    (∀ n, OrchEffect.wroteCompleted n ∉ (executeOrganizeTask envCancelAtCheck1 .idle).effects) ∧
    (∀ m, OrchEffect.wroteError m ∉ (executeOrganizeTask envCancelAtCheck1 .idle).effects) ∧
    (1 ≤ 1 → OrchEffect.ungroupedAll ∉ (executeOrganizeTask envCancelAtCheck1 .idle).effects) ∧
    (1 ≤ 2 → OrchEffect.calledAI ∉ (executeOrganizeTask envCancelAtCheck1 .idle).effects) ∧
    (1 ≤ 3 → ∀ a, OrchEffect.appliedGroups a ∉
      (executeOrganizeTask envCancelAtCheck1 .idle).effects) ∧
    ((executeOrganizeTask envCancelAtCheck1 .idle).final = .cancelled ∨
      ∃ p, (executeOrganizeTask envCancelAtCheck1 .idle).final = .running p) :=
  cancellation_at_boundary_stops envCancelAtCheck1 .idle 1 (by rfl)

lemma readCancelled_snd_state (env : OrchEnv) (s : OrchSt) :
    (readCancelled env s).2.state =
      if env.extCancelled s.readIdx then TaskState.cancelled else s.state := rfl

lemma orch_completes_aux (env : OrchEnv) (st0 : TaskState) (gs : List TabGroup)
    (r : OrchResult) (hr : executeOrganizeTask env st0 = r)
    (hab : ∀ i, env.abortedAt i = false)
    (hext : ∀ i, env.extCancelled i = false)
    (htabs : env.tabs ≠ [])
    (hai : env.aiResult = .ok gs) :
    r.exit = .completedOk ∧ (∃ d, r.final = .completed gs.length d) ∧
    OrchEffect.appliedGroups (createTabGroups gs env.live env.groupOk
      env.settings.collapseGroups env.activeTabId) ∈ r.effects := by
  simp only [executeOrganizeTask, hab, readCancelled_fst, readCancelled_effects,
    readCancelled_snd_state, hext,
    pushLog, pushLogs, pushEffect, writeState, isCancelledState, Bool.false_eq_true, if_false,
    Bool.or_self, Bool.or_false, Bool.false_or, length_beq_zero_false htabs] at hr
  exact fromAI_completed_aux env _ gs r hr hai (hab 3) hext .callingAI rfl

/-- C2 (amended): a failure to create one tab group is not fatal — with
no cancellation, a non-empty snapshot and a successful AI call the task
always reaches `completed`; the applied groups are exactly
`createTabGroups` of the returned groups, which processes every group
independently of earlier failures (each indexed group is kept iff its
own surviving tabs are non-empty and its own creation call succeeds);
and the persisted `groupCount` is the number of groups the AI returned
(`groups.length`), not the number actually applied. -/
theorem apply_failure_not_fatal (env : OrchEnv) (st0 : TaskState) (gs : List TabGroup)
    (hab : ∀ i, env.abortedAt i = false)
    (hext : ∀ i, env.extCancelled i = false)
    (htabs : env.tabs ≠ [])
    (hai : env.aiResult = .ok gs) :
    (executeOrganizeTask env st0).exit = .completedOk ∧
    (∃ d, (executeOrganizeTask env st0).final = .completed gs.length d) ∧
    OrchEffect.appliedGroups (createTabGroups gs env.live env.groupOk
      env.settings.collapseGroups env.activeTabId) ∈ (executeOrganizeTask env st0).effects ∧
    ∀ (groups : List TabGroup) (live groupOk : Nat → Bool) (c : Bool) (a : Option Nat),
      createTabGroups groups live groupOk c a =
        groups.enum.filterMap (applyStep live groupOk c a) := by
  obtain ⟨h1, h2, h3⟩ := orch_completes_aux env st0 gs _ rfl hab hext htabs hai
  exact ⟨h1, h2, h3, createTabGroups_eq_filterMap⟩

/-- C2 counterexample: with two returned groups of which only the first
applies (the second group-creation call fails), the task completes with
`groupCount = 2` — the number of groups the AI returned — while exactly
one group was actually applied; the claim that `groupCount` equals the
number of groups actually applied is false on this input. -/
theorem completed_groupCount_counterexample :
    (executeOrganizeTask envPartialApply .idle).final = .completed 2 none ∧
    (executeOrganizeTask envPartialApply .idle).effects =
      [.wrotePhase .fetchingTabs, .fetchedTabs, .wrotePhase .ungrouping, .ungroupedAll,
        .wrotePhase .callingAI, .calledAI, .wrotePhase .creatingGroups, .queriedActiveTab,
        .appliedGroups [⟨.str "A", "blue", [1], false⟩], .wroteCompleted 2] ∧
    ([(⟨.str "A", "blue", [1], false⟩ : AppliedGroup)]).length = 1 ∧ (2 : Nat) ≠ 1 :=
  ⟨rfl, rfl, rfl, by omega⟩

/-- Closed witness for `apply_failure_not_fatal` at `envPartialApply`. -/
theorem apply_failure_not_fatal_witness :
    (executeOrganizeTask envPartialApply .idle).exit = .completedOk ∧
    (∃ d, (executeOrganizeTask envPartialApply .idle).final =
      .completed ([⟨.str "A", "blue", [1]⟩, ⟨.str "B", "red", [1]⟩] : List TabGroup).length d) ∧
    OrchEffect.appliedGroups (createTabGroups [⟨.str "A", "blue", [1]⟩, ⟨.str "B", "red", [1]⟩]
      envPartialApply.live envPartialApply.groupOk envPartialApply.settings.collapseGroups
      envPartialApply.activeTabId) ∈ (executeOrganizeTask envPartialApply .idle).effects ∧
    ∀ (groups : List TabGroup) (live groupOk : Nat → Bool) (c : Bool) (a : Option Nat),
      createTabGroups groups live groupOk c a =
        groups.enum.filterMap (applyStep live groupOk c a) :=
  apply_failure_not_fatal envPartialApply .idle _
    (fun _ => rfl) (fun _ => rfl) (by simp [envPartialApply]) rfl

/-- C3: while the persisted record is `running`, both start entry points
reject the request without mutating the record — the message handler
responds `started := false` with the distinct "Task already running"
error, and the programmatic `startOrganize` takes its already-running
early return; neither queues nor overwrites anything. -/
theorem start_rejected_while_running (st : TaskState) (settings : Settings)
    (h : isRunning st = true) :
    handler st settings = ({ started := false, error := some "Task already running" }, st) ∧
    startOrganize st settings = (.alreadyRunning, st) := by
  unfold handler startOrganize
  rw [if_pos h, if_pos h]
  exact ⟨rfl, rfl⟩

/-- Closed witness for `start_rejected_while_running`. -/
theorem start_rejected_while_running_witness :
    handler (.running .callingAI) demoSettings =
      ({ started := false, error := some "Task already running" }, .running .callingAI) ∧
    startOrganize (.running .callingAI) demoSettings = (.alreadyRunning, .running .callingAI) :=
  start_rejected_while_running (.running .callingAI) demoSettings rfl

/-- C10: the empty string (falsy) and every non-string value short-cut
`sanitizeUrl` to the fixed constant `"(invalid URL)"`, which is not a
truncation of the raw input (no truncation of `""` equals it, and it is
not a prefix of `""`). -/
theorem sanitizeUrl_empty_and_nonstring :
    sanitizeUrl "" = "(invalid URL)" ∧
    (∀ v : JsonVal, (∀ s, v ≠ .str s) → sanitizeUrlJS v = "(invalid URL)") ∧
    (∀ n : Nat, ("".data.take n).asString ≠ "(invalid URL)") ∧
    ¬ ("(invalid URL)".data <+: "".data) := by
  refine ⟨rfl, ?_, ?_, by decide⟩
  · intro v hv
    cases v with
    | str s => exact absurd rfl (hv s)
    | null => rfl
    | bool b => rfl
    | num n => rfl
    | arr xs => rfl
    | obj fs => rfl
  · intro n
    rw [show ("".data : List Char) = [] from rfl, List.take_nil]
    decide

/-- Closed witness for `sanitizeUrl_empty_and_nonstring`: a numeric
(non-string) value reaching the sanitizer. -/
theorem sanitizeUrl_empty_and_nonstring_witness :
    sanitizeUrlJS (.num 3) = "(invalid URL)" ∧ sanitizeUrl "" = "(invalid URL)" :=
  ⟨sanitizeUrl_empty_and_nonstring.2.1 (.num 3) (fun _ h => JsonVal.noConfusion h),
    sanitizeUrl_empty_and_nonstring.1⟩
